import Mathlib

/-!
Verification development for the `hiway/chirp` repository (Go).

The repository is shallowly embedded: every Go function relevant to the
claims is translated into a Lean definition over exact arithmetic.

Modelling conventions:
* Go `float64` arithmetic is modelled by exact rationals (`ℚ`); `int(x)`
  conversion (truncation toward zero) is `truncQ`.
* `math.Sin` is transcendental; it is modelled by an arbitrary parameter
  `sinTwoPi : ℚ → ℚ` standing for the map `x ↦ sin(2*pi*x)`, so a call
  `math.Sin(2*pi*f*t)` becomes `sinTwoPi (f*t)`.  No theorem below depends
  on the values of this parameter; witnesses instantiate it with `fun _ => 0`.
* `time.Duration` is an `ℤ` count of nanoseconds, `time.Time` an exact
  rational number of seconds.
* Byte slices are `List ℕ`; an interleaved signed 16-bit little-endian
  buffer is produced by `toBytes` from the `List ℤ` of sample values.
-/

/-- Go conversion `int(x)` from `float64`: truncation toward zero. -/
def truncQ (q : ℚ) : ℤ :=
  if q < 0 then Int.ceil q else Int.floor q

/-- Little-endian two-byte (twos-complement) encoding of an int16 value,
as written by `binary.Write(buf, binary.LittleEndian, data)` per element. -/
def int16ToBytes (v : ℤ) : List ℕ :=
  [(v % 65536).toNat % 256, (v % 65536).toNat / 256]

/-- Serialize a `[]int16` into the little-endian byte buffer produced by
`binary.Write(buf, binary.LittleEndian, data)`. -/
def toBytes (samples : List ℤ) : List ℕ :=
  samples.flatMap int16ToBytes

theorem toBytes_length (samples : List ℤ) :
    (toBytes samples).length = 2 * samples.length := by
  induction samples with
  | nil => rfl
  | cons a l ih =>
      simp [toBytes, int16ToBytes, List.flatMap_cons] at ih ⊢
      omega

/-- Length of an interleaved (two values per index) sample list. -/
theorem interleave_length {α : Type} (n : ℕ) (f g : ℕ → α) :
    ((List.range n).flatMap (fun i => [f i, g i])).length = 2 * n := by
  induction n with
  | zero => rfl
  | succ m ih =>
      rw [List.range_succ]
      simp [List.flatMap_append] at ih ⊢
      omega

/-! ### `chirp.go`: the root-package tone synthesizer and playback gate -/

/-- Model of `chirp.Options` (src/chirp.go): frequency in Hz, duration as a
`time.Duration` (nanoseconds), volume in 0.0–1.0. -/
structure Options where
  Frequency : ℚ
  DurationNs : ℤ
  Volume : ℚ
deriving DecidableEq

/-- Model of `opts.Duration.Seconds()`. -/
def durSeconds (o : Options) : ℚ :=
  (o.DurationNs : ℚ) / 1000000000

/-- Model of `calculateEnvelope` (src/chirp.go lines 215-228): ADSR envelope as a
chain of conditionals on `progress`. -/
def calculateEnvelope (progress attack decay sustain release : ℚ) : ℚ :=
  if progress < attack then
    progress / attack
  else if progress < attack + decay then
    1 - (1 - sustain) * ((progress - attack) / decay)
  else if progress > 1 - release then
    sustain * (1 - (progress - (1 - release)) / release)
  else
    sustain

/-- Model of `numSamples := int(opts.Duration.Seconds() * sampleRate)` with
`sampleRate = 48000` (src/chirp.go line 178). -/
def numSamplesZ (o : Options) : ℤ :=
  truncQ (durSeconds o * 48000)

/-- One sample value of `generateChirp` (src/chirp.go lines 191-201):
`int16(amplitude * envelope * math.Sin(2*pi*f*t))` with
`amplitude = volume * 32767`, `t = i/sampleRate`, `progress = i/numSamples`,
and the fixed ADSR fractions 0.1 / 0.2 / 0.7 / 0.3. -/
def chirpSampleValue (sinTwoPi : ℚ → ℚ) (o : Options) (n i : ℕ) : ℤ :=
  let t : ℚ := (i : ℚ) / 48000
  let progress : ℚ := (i : ℚ) / (n : ℚ)
  let envelope := calculateEnvelope progress (1/10) (2/10) (7/10) (3/10)
  truncQ (o.Volume * 32767 * envelope * sinTwoPi (o.Frequency * t))

/-- The `[]int16` buffer filled by the loop of `generateChirp`: each sample
value written to both stereo channels (`data[i*2]` and `data[i*2+1]`). -/
def chirpData (sinTwoPi : ℚ → ℚ) (o : Options) (n : ℕ) : List ℤ :=
  (List.range n).flatMap
    (fun i => [chirpSampleValue sinTwoPi o n i, chirpSampleValue sinTwoPi o n i])

/-- Result of `generateChirp`: a byte slice, the `nil` slice, or a runtime
panic (`make` with a negative length). -/
inductive GenResult where
  | ok (bytes : List ℕ)
  | nilData
  | panicked
deriving DecidableEq

/-- Model of `generateChirp` (src/chirp.go lines 172-212).  `Volume <= 0` returns the
nil slice.  A negative `numSamples` makes `make([]int16, numSamples*2)`
panic.  When `numSamples = 0` no byte is ever written to the fresh
`bytes.Buffer`, whose `Bytes()` is then the nil slice as well. -/
def generateChirp (sinTwoPi : ℚ → ℚ) (o : Options) : GenResult :=
  if o.Volume ≤ 0 then .nilData
  else
    let n := numSamplesZ o
    if n < 0 then .panicked
    else if n = 0 then .nilData
    else .ok (toBytes (chirpData sinTwoPi o n.toNat))

/-- Byte length of a generation result (`nil` has length 0). -/
def byteLen : GenResult → ℕ
  | .ok bytes => bytes.length
  | .nilData => 0
  | .panicked => 0

/-- The Sound-State Gate of src/chirp.go: `lastSoundTime` guarded state plus
the configured `minSoundGap`. -/
structure SoundState where
  lastSoundTime : ℚ
  minSoundGap : ℚ
deriving DecidableEq

/-- Model of `IsSoundPlaying` (src/chirp.go lines 142-146):
`time.Since(lastSoundTime) < minSoundGap`. -/
def IsSoundPlaying (st : SoundState) (now : ℚ) : Prop :=
  now - st.lastSoundTime < st.minSoundGap

instance (st : SoundState) (now : ℚ) : Decidable (IsSoundPlaying st now) := by
  unfold IsSoundPlaying
  infer_instance

/-- Outcome of one `PlayChirp` call: suppressed by the gap gate (returns
`nil`), generation returned `nil` data (`PlayChirp` returns an error),
a panic, or `playSound` invoked with the rendered bytes. -/
inductive Outcome where
  | suppressed
  | errored
  | panicked
  | played (bytes : List ℕ)
deriving DecidableEq

/-- Model of `PlayChirp` (src/chirp.go lines 156-169): gate check, `markSoundStart`,
generation, then `playSound`.  The returned state is the updated Sound-State
Gate. -/
def PlayChirp (sinTwoPi : ℚ → ℚ) (st : SoundState) (now : ℚ) (o : Options) :
    SoundState × Outcome :=
  if IsSoundPlaying st now then (st, .suppressed)
  else
    let st2 : SoundState := { st with lastSoundTime := now }
    match generateChirp sinTwoPi o with
    | .nilData => (st2, .errored)
    | .panicked => (st2, .panicked)
    | .ok bytes => (st2, .played bytes)

/-- Model of `playSound` (src/chirp.go lines 231-252) hands the buffer to the audio
device only when it is non-empty (`len(data) == 0` returns early). -/
def invokesDevice : Outcome → Bool
  | .played bytes => !bytes.isEmpty
  | _ => false

/-! ### `chirp.go`: the Recent-Input Window (echo tracker) -/

/-- Model of `inputBuffer` (src/chirp.go lines 71-80): recorded `(char, timestamp)`
entries plus the echo timeout.  Bytes are modelled as naturals. -/
structure InputTracker where
  chars : List (ℕ × ℚ)
  timeout : ℚ
deriving DecidableEq

/-- The pruning performed on every access: keep entries with
`now.Sub(ic.timestamp) < timeout`. -/
def pruneChars (tk : InputTracker) (now : ℚ) : List (ℕ × ℚ) :=
  tk.chars.filter (fun ic => now - ic.2 < tk.timeout)

/-- Model of `TrackInput` (src/chirp.go lines 255-278): prune expired entries, then
append the new `(char, now)` entry. -/
def TrackInput (tk : InputTracker) (c : ℕ) (now : ℚ) : InputTracker :=
  { tk with chars := pruneChars tk now ++ [(c, now)] }

/-- Model of `IsRecentInput` (src/chirp.go lines 281-305): prune while checking; the
result is true iff a surviving entry has the queried character.  Returns the
flag together with the pruned tracker. -/
def IsRecentInput (tk : InputTracker) (c : ℕ) (now : ℚ) : Bool × InputTracker :=
  ((pruneChars tk now).any (fun ic => ic.1 == c),
   { tk with chars := pruneChars tk now })

/-- The per-byte scan of the legacy output-copy loop
(src/unnamed/part_004 lines 99-117, also part_005): walk the buffer,
count printable characters (`isPrintableOrControl` returns true for every
byte), and stop with `shouldChirp = false` at the first recent-input echo.
Returns (shouldChirp-so-far, printableCount, tracker). -/
def scanOutput (now : ℚ) : InputTracker → List ℕ → ℕ → Bool × ℕ × InputTracker
  | tk, [], cnt => (true, cnt, tk)
  | tk, b :: rest, cnt =>
      let r := IsRecentInput tk b now
      if r.1 then (false, cnt + 1, r.2)
      else scanOutput now r.2 rest (cnt + 1)

/-- Whether the legacy output loop chirps for a batch, before the sound-gap
check: `shouldChirp && !(printableCount > 100) && printableCount > 0`
(src/unnamed/part_004 lines 113-121). -/
def legacyShouldChirp (tk : InputTracker) (now : ℚ) (buf : List ℕ) :
    Bool × InputTracker :=
  let r := scanOutput now tk buf 0
  ((r.1 && !(decide (r.2.1 > 100))) && decide (r.2.1 > 0), r.2.2)

/-! ### `pkg/sample` and `pkg/config` -/

/-- Model of `sample.SampleConfig` (src/unnamed/part_002 lines 10-16). -/
structure SampleConfig where
  Name : String
  Duration : ℤ
  Frequency : ℤ
  Volume : ℚ
deriving DecidableEq

/-- Model of `SampleConfig.Validate` (src/unnamed/part_002 lines 19-31). -/
def SampleConfig.Validate (s : SampleConfig) : Except String Unit :=
  if s.Duration ≤ 0 then .error "sample duration must be positive"
  else if s.Frequency ≤ 0 then .error "sample frequency must be positive"
  else if s.Volume < 0 ∨ s.Volume > 1 then
    .error "sample volume must be between 0.0 and 1.0"
  else .ok ()

namespace config

/-- Model of `config.Queue` (src/unnamed/part_002 lines 45-51). -/
structure Queue where
  Name : String
  Match : List String
  SampleName : String
  MaxLength : ℤ
  Sample : Option SampleConfig
deriving DecidableEq

/-- Model of `config.Queue.Validate` (src/unnamed/part_002 lines 54-68); a zero
`MaxLength` is defaulted to 1 (the Go method mutates the receiver). -/
def Queue.Validate (q : Queue) : Except String Queue :=
  if q.Match.length = 0 then .error "match patterns cannot be empty"
  else if q.SampleName = "" then .error "sample name cannot be empty"
  else if q.MaxLength < 0 then .error "max length cannot be negative"
  else if q.MaxLength = 0 then .ok { q with MaxLength := 1 }
  else .ok q

/-- Model of `config.Queue.MatchesInput` (src/unnamed/part_002 lines 71-80): literal
membership of the one-byte string in the pattern list. -/
def Queue.MatchesInput (q : Queue) (b : ℕ) : Bool :=
  q.Match.contains (String.mk [Char.ofNat b])

/-- Model of `config.Queue.MatchesOutput` (src/unnamed/part_002 lines 83-86): same
logic as input matching. -/
def Queue.MatchesOutput (q : Queue) (b : ℕ) : Bool :=
  q.MatchesInput b

/-- Model of `config.Config` (src/unnamed/part_002 lines 89-92); the TOML maps are
modelled as association lists. -/
structure Config where
  Samples : List (String × SampleConfig)
  Queues : List (String × Queue)
deriving DecidableEq

/-- The samples loop of `LoadConfig` (src/unnamed/part_002 lines 109-115):
set each name from the map key and validate. -/
def validateSamples :
    List (String × SampleConfig) → Except String (List (String × SampleConfig))
  | [] => .ok []
  | (name, s) :: rest =>
      match SampleConfig.Validate { s with Name := name } with
      | .error e => .error e
      | .ok _ =>
          match validateSamples rest with
          | .error e => .error e
          | .ok rest2 => .ok ((name, { s with Name := name }) :: rest2)

/-- The queues loop of `LoadConfig` (src/unnamed/part_002 lines 117-134):
set the name, validate, and link the referenced sample, failing on an
unknown reference. -/
def linkQueues (samples : List (String × SampleConfig)) :
    List (String × Queue) → Except String (List (String × Queue))
  | [] => .ok []
  | (name, q) :: rest =>
      match config.Queue.Validate { q with Name := name } with
      | .error e => .error e
      | .ok q2 =>
          match samples.lookup q2.SampleName with
          | none => .error "queue references unknown sample"
          | some s =>
              match linkQueues samples rest with
              | .error e => .error e
              | .ok rest2 => .ok ((name, { q2 with Sample := some s }) :: rest2)

/-- Model of `config.LoadConfig` (src/unnamed/part_002 lines 95-138) after a
successful TOML decode: validate all samples, then validate and link all
queues. -/
def LoadConfig (cfg : Config) : Except String Config :=
  match validateSamples cfg.Samples with
  | .error e => .error e
  | .ok samples2 =>
      match linkQueues samples2 cfg.Queues with
      | .error e => .error e
      | .ok queues2 => .ok { Samples := samples2, Queues := queues2 }

end config

/-! ### `pkg/queue` -/

namespace queue

/-- Model of `queue.Queue` (src/unnamed/part_002 lines 152-159): the buffered
`itemChan` of capacity `cfg.MaxLength` is the FIFO `items` list together
with its fixed `capacity`. -/
structure Queue where
  Config : config.Queue
  capacity : ℕ
  items : List String
deriving DecidableEq

/-- Model of `queue.Queue.Add` (src/unnamed/part_002 lines 182-189): non-blocking
send; when the channel buffer is full the item is dropped (the `default`
branch logs and returns, never blocking and never reporting an error). -/
def Queue.Add (q : Queue) (item : String) : Queue :=
  if q.items.length < q.capacity then { q with items := q.items ++ [item] }
  else q

/-- Repeated `Add` calls with no consumer progress. -/
def Queue.addAll (q : Queue) : List String → Queue
  | [] => q
  | x :: rest => Queue.addAll (q.Add x) rest

end queue

/-- Model of `Chirp.handleOutput` (src/unnamed/part_003 lines 187-200): for every
output byte, test every output match set of every queue and `Add` on a hit.  Note
that no recent-input check is performed on this path. -/
def handleOutput (queues : List queue.Queue) (data : List ℕ) :
    List queue.Queue :=
  data.foldl
    (fun qs b =>
      qs.map (fun q =>
        if q.Config.MatchesOutput b then q.Add (String.mk [Char.ofNat b])
        else q))
    queues

/-! ### `pkg/player` -/

namespace player

/-- Model of `player.calculateEnvelope` (src/pkg/player/player.go lines 194-215):
same chain as the root package, except the release branch clamps a negative
sustain to 0. -/
def calculateEnvelope (progress attack decay sustain release : ℚ) : ℚ :=
  if progress < attack then
    progress / attack
  else if progress < attack + decay then
    1 - (1 - sustain) * ((progress - attack) / decay)
  else if progress > 1 - release then
    (if sustain < 0 then 0 else sustain) *
      (1 - (progress - (1 - release)) / release)
  else
    sustain

/-- Model of `time.Duration(sample.Duration) * time.Millisecond` in seconds. -/
def sampleDurSeconds (s : SampleConfig) : ℚ :=
  (s.Duration : ℚ) * 1000000 / 1000000000

/-- Model of `numSamples := int(duration.Seconds() * sampleRate)`
(src/pkg/player/player.go line 154). -/
def numSamplesZ (s : SampleConfig) : ℤ :=
  truncQ (sampleDurSeconds s * 48000)

/-- One sample value of `OtoPlayer.generateChirp`
(src/pkg/player/player.go lines 168-178). -/
def sampleValue (sinTwoPi : ℚ → ℚ) (s : SampleConfig) (n i : ℕ) : ℤ :=
  let t : ℚ := (i : ℚ) / 48000
  let progress : ℚ := (i : ℚ) / (n : ℚ)
  let envelope := calculateEnvelope progress (1/10) (2/10) (7/10) (3/10)
  truncQ (s.Volume * 32767 * envelope * sinTwoPi ((s.Frequency : ℚ) * t))

/-- Model of `OtoPlayer.generateChirp` (src/pkg/player/player.go lines 147-191):
`Volume <= 0 || Duration <= 0` yields `(nil, nil)` (modelled `none`, never
an error); otherwise the interleaved stereo buffer. -/
def generateChirp (sinTwoPi : ℚ → ℚ) (s : SampleConfig) : Option (List ℕ) :=
  if s.Volume ≤ 0 ∨ s.Duration ≤ 0 then none
  else
    let n := (numSamplesZ s).toNat
    some (toBytes ((List.range n).flatMap
      (fun i => [sampleValue sinTwoPi s n i, sampleValue sinTwoPi s n i])))

/-- The mutable part of `player.OtoPlayer`
(src/pkg/player/player.go lines 64-70). -/
structure OtoPlayer where
  minSoundGap : ℚ
  lastSoundTime : ℚ
deriving DecidableEq

/-- Result of one `OtoPlayer.Play` call.  The method returns a `nil` error
on the `skipped` and `noData` paths; only the external audio device can
fail on the `played` path. -/
inductive PlayResult where
  | skipped
  | noData
  | played (bytes : List ℕ)
deriving DecidableEq

/-- Model of `OtoPlayer.Play` (src/pkg/player/player.go lines 111-144): gap check,
`markSoundStart`, generation; `nil` data is logged and skipped (no error),
otherwise the buffer is handed to `playSound`. -/
def Play (sinTwoPi : ℚ → ℚ) (p : OtoPlayer) (now : ℚ) (s : SampleConfig) :
    OtoPlayer × PlayResult :=
  if now - p.lastSoundTime < p.minSoundGap then (p, .skipped)
  else
    let p2 : OtoPlayer := { p with lastSoundTime := now }
    match generateChirp sinTwoPi s with
    | none => (p2, .noData)
    | some bytes => (p2, .played bytes)

end player

/-! ### The earlier root-package iteration with the rendered-buffer cache
(src/unnamed/part_001, second file: `GenerateChirp`, `PlayChirp`,
`getCacheKey`, `getCachedChirp`, `cacheChirp`). -/

namespace old

/-- Model of `calculateEnvelope` of the cached iteration (src/unnamed/part_001
lines 368-392): argument order (progress, attack, decay, release, sustain)
and an extra `progress >= 1.0` guard returning 0. -/
def calculateEnvelope (progress attack decay release sustain : ℚ) : ℚ :=
  if progress ≥ 1 then 0
  else if progress < attack then progress / attack
  else if progress < attack + decay then
    1 - (1 - sustain) * ((progress - attack) / decay)
  else if progress > 1 - release then
    sustain * (1 - (progress - (1 - release)) / release)
  else sustain

/-- Model of `numSamples := int(float64(SampleRate) * durationSeconds)`
(src/unnamed/part_001 line 319), `SampleRate = 48000`. -/
def numSamplesZ (o : Options) : ℤ :=
  truncQ (48000 * durSeconds o)

/-- The `amplitude` int16 of one loop iteration of `GenerateChirp`
(src/unnamed/part_001 lines 338-350): a slightly frequency-modulated sine
(`instantFreq = 2*pi*f*(1 + 0.001*sin(2*pi*8*t))`) scaled by the envelope
(attack 0.03, decay 0.05, release 0.1, sustain 0.85 over
`progress = t/durationSeconds`) and by `volume * 28000`. -/
def sampleAmp (sinTwoPi : ℚ → ℚ) (o : Options) (i : ℕ) : ℤ :=
  let t : ℚ := (i : ℚ) / 48000
  let progress : ℚ := t / durSeconds o
  let freqMod : ℚ := 1 + (1/1000) * sinTwoPi (8 * t)
  let envelope := calculateEnvelope progress (3/100) (5/100) (1/10) (85/100)
  truncQ (sinTwoPi (o.Frequency * freqMod * t) * envelope * (o.Volume * 28000))

/-- The serialized interleaved buffer built by the loop of `GenerateChirp`
(src/unnamed/part_001 lines 338-360) with the fixed stereo spread
(`left = int16(amp*0.95)`, `right = int16(amp*1.05)`). -/
def chirpBytes (sinTwoPi : ℚ → ℚ) (o : Options) : List ℕ :=
  toBytes ((List.range (numSamplesZ o).toNat).flatMap (fun i =>
    [truncQ ((sampleAmp sinTwoPi o i : ℚ) * (95/100)),
     truncQ ((sampleAmp sinTwoPi o i : ℚ) * (105/100))]))

/-- Model of `GenerateChirp` (src/unnamed/part_001 lines 313-366): zero or negative
volume yields an empty reader; otherwise the interleaved stereo buffer.
`none` models the runtime panic of `make` on a negative `numSamples`. -/
def GenerateChirp (sinTwoPi : ℚ → ℚ) (o : Options) : Option (List ℕ) :=
  if o.Volume ≤ 0 then some []
  else if numSamplesZ o < 0 then none
  else some (chirpBytes sinTwoPi o)

/-- Model of `getCacheKey` (src/unnamed/part_001 lines 459-461): the information
content of `fmt.Sprintf` with formats `%.0f` (frequency), `%.0f` (duration
in ms) and `%.2f` (volume), i.e. the three rounded numbers. -/
def getCacheKey (o : Options) : ℤ × ℤ × ℤ :=
  (round o.Frequency, round (durSeconds o * 1000), round (o.Volume * 100))

/-- The globals of the cached iteration: the sound-state gate plus the
`chirpCache` map (an association list keyed by `getCacheKey`). -/
structure OldState where
  lastSoundTime : ℚ
  minSoundGap : ℚ
  cache : List ((ℤ × ℤ × ℤ) × List ℕ)
deriving DecidableEq

/-- Outcome of one cached `PlayChirp` call.  `played` carries the bytes
handed to `PlaySound` (the device is invoked iff they are non-empty). -/
inductive OldOutcome where
  | suppressed
  | panicked
  | played (bytes : List ℕ)
deriving DecidableEq

/-- Model of `PlayChirp` of the cached iteration (src/unnamed/part_001
lines 433-456): gate check, `markSoundStart`, then `getCachedChirp`; on a
miss `GenerateChirp` renders, `cacheChirp` stores, and the bytes are
played. -/
def PlayChirp (sinTwoPi : ℚ → ℚ) (st : OldState) (now : ℚ) (o : Options) :
    OldState × OldOutcome :=
  if now - st.lastSoundTime < st.minSoundGap then (st, .suppressed)
  else
    let st2 : OldState := { st with lastSoundTime := now }
    match st2.cache.lookup (getCacheKey o) with
    | some bytes => (st2, .played bytes)
    | none =>
        match GenerateChirp sinTwoPi o with
        | none => (st2, .panicked)
        | some bytes =>
            ({ st2 with cache := (getCacheKey o, bytes) :: st2.cache },
             .played bytes)

end old

/-! ### Helper lemmas and concrete instantiations -/

/-- Concrete instantiation of the abstract sine parameter, used by the
closed witness and counterexample theorems; no theorem below depends on the
values the parameter takes. -/
def sinq0 : ℚ → ℚ := fun _ => 0

theorem truncQ_of_nonneg {q : ℚ} (h : 0 ≤ q) : truncQ q = Int.floor q := by
  unfold truncQ
  rw [if_neg (not_lt.mpr h)]

theorem chirpData_length (sinTwoPi : ℚ → ℚ) (o : Options) (n : ℕ) :
    (chirpData sinTwoPi o n).length = 2 * n :=
  interleave_length n _ _

theorem generateChirp_eq_ok (sinTwoPi : ℚ → ℚ) (o : Options)
    (hv : 0 < o.Volume) (hn : 1 ≤ numSamplesZ o) :
    generateChirp sinTwoPi o =
      .ok (toBytes (chirpData sinTwoPi o (numSamplesZ o).toNat)) := by
  unfold generateChirp
  rw [if_neg (not_le.mpr hv), if_neg (by omega), if_neg (by omega)]

theorem generateChirp_ok_length (sinTwoPi : ℚ → ℚ) (o : Options)
    (hv : 0 < o.Volume) (hn : 1 ≤ numSamplesZ o) :
    byteLen (generateChirp sinTwoPi o) = 2 * 2 * (numSamplesZ o).toNat := by
  rw [generateChirp_eq_ok sinTwoPi o hv hn]
  simp only [byteLen, toBytes_length, chirpData_length]
  ring

theorem old_chirpBytes_length (sinTwoPi : ℚ → ℚ) (o : Options) :
    (old.chirpBytes sinTwoPi o).length = 2 * 2 * (old.numSamplesZ o).toNat := by
  unfold old.chirpBytes
  rw [toBytes_length, interleave_length]
  ring

/-- The gate state produced by a `PlayChirp` call that passed the gap
check, whatever the generation outcome. -/
theorem PlayChirp_fst (sinTwoPi : ℚ → ℚ) (st : SoundState) (now : ℚ)
    (o : Options) (hg : ¬ IsSoundPlaying st now) :
    (PlayChirp sinTwoPi st now o).1 = { st with lastSoundTime := now } := by
  unfold PlayChirp
  rw [if_neg hg]
  cases generateChirp sinTwoPi o <;> rfl

theorem invokesDevice_PlayChirp (sinTwoPi : ℚ → ℚ) (st : SoundState)
    (now : ℚ) (o : Options) (hg : ¬ IsSoundPlaying st now)
    (hv : 0 < o.Volume) (hn : 1 ≤ numSamplesZ o) :
    invokesDevice (PlayChirp sinTwoPi st now o).2 = true := by
  unfold PlayChirp
  rw [if_neg hg, generateChirp_eq_ok sinTwoPi o hv hn]
  have hlen : (toBytes (chirpData sinTwoPi o (numSamplesZ o).toNat)).length =
      2 * (2 * (numSamplesZ o).toNat) := by
    rw [toBytes_length, chirpData_length]
  cases hb : toBytes (chirpData sinTwoPi o (numSamplesZ o).toNat) with
  | nil =>
      rw [hb] at hlen
      simp at hlen
      omega
  | cons x xs =>
      simp only [hb]
      rfl

/-! ### Claim C1 -/

/-- Claim C1 is refuted as stated: the synthesizer truncates
`sampleRate * durationSeconds` toward zero rather than rounding.  At
duration 31250ns the exact product is 1.5; `generateChirp` emits 1 sample
per channel (4 bytes) while the claimed formula
`2 * 2 * round(48000 * durationSeconds)` gives 8 bytes. -/
theorem c1_round_counterexample :
    byteLen (generateChirp sinq0 ⟨440, 31250, 1/2⟩) ≠
      2 * 2 * (round (durSeconds ⟨440, 31250, 1/2⟩ * 48000)).toNat := by
  have hq : durSeconds ⟨440, 31250, 1/2⟩ * 48000 = 3/2 := by
    norm_num [durSeconds]
  have hns : numSamplesZ ⟨440, 31250, 1/2⟩ = 1 := by
    rw [numSamplesZ, hq, truncQ_of_nonneg (by norm_num)]
    norm_num
  have hlen : byteLen (generateChirp sinq0 ⟨440, 31250, 1/2⟩) = 4 := by
    rw [generateChirp_ok_length sinq0 _ (by norm_num) (by rw [hns])]
    rw [hns]
    rfl
  have hr : round (durSeconds ⟨440, 31250, 1/2⟩ * 48000) = 2 := by
    rw [hq]
    norm_num [round_eq]
  rw [hlen, hr]
  decide

/-- Claim C1, amended: for every call with volume > 0 and duration > 0 the
buffer holds `channelCount * trunc(sampleRate * durationSeconds)`
interleaved 16-bit samples — truncation toward zero (here equal to the
floor), not rounding — i.e. `2 * 2 * floor(48000 * durationSeconds)`
bytes, and generation does not panic. -/
theorem c1_buffer_length_trunc (sinTwoPi : ℚ → ℚ) (o : Options)
    (hv : 0 < o.Volume) (hd : 0 < o.DurationNs) :
    generateChirp sinTwoPi o ≠ .panicked ∧
    byteLen (generateChirp sinTwoPi o) = 2 * 2 * (numSamplesZ o).toNat ∧
    numSamplesZ o = Int.floor (durSeconds o * 48000) := by
  have hds : 0 ≤ durSeconds o * 48000 := by
    have : (0 : ℚ) ≤ (o.DurationNs : ℚ) := by exact_mod_cast le_of_lt hd
    unfold durSeconds
    positivity
  have htr : numSamplesZ o = Int.floor (durSeconds o * 48000) :=
    truncQ_of_nonneg hds
  have hn0 : 0 ≤ numSamplesZ o := by
    rw [htr]
    exact Int.floor_nonneg.mpr hds
  refine ⟨?_, ?_, htr⟩
  · unfold generateChirp
    rw [if_neg (not_le.mpr hv), if_neg (by omega)]
    by_cases h0 : numSamplesZ o = 0 <;> simp [h0]
  · by_cases h0 : numSamplesZ o = 0
    · unfold generateChirp
      rw [if_neg (not_le.mpr hv), if_neg (by omega), if_pos h0]
      simp [byteLen, h0]
    · exact generateChirp_ok_length sinTwoPi o hv (by omega)

/-- Witness for the amended C1: a 1ms tone at half volume has a positive
volume and duration, and the theorem applies. -/
theorem c1_buffer_length_trunc_witness :
    (0 : ℚ) < 1/2 ∧ (0 : ℤ) < 1000000 ∧
    (generateChirp sinq0 ⟨440, 1000000, 1/2⟩ ≠ .panicked ∧
     byteLen (generateChirp sinq0 ⟨440, 1000000, 1/2⟩) =
       2 * 2 * (numSamplesZ ⟨440, 1000000, 1/2⟩).toNat ∧
     numSamplesZ ⟨440, 1000000, 1/2⟩ =
       Int.floor (durSeconds ⟨440, 1000000, 1/2⟩ * 48000)) :=
  ⟨by norm_num, by norm_num,
   c1_buffer_length_trunc sinq0 ⟨440, 1000000, 1/2⟩ (by norm_num) (by norm_num)⟩

/-! ### Claim C2 -/

/-- Claim C2 is refuted as stated on the root package: for volume = 0 (and
positive duration), `generateChirp` returns the nil slice, which
`PlayChirp` turns into the error `failed to generate chirp data`
(src/chirp.go lines 163-166) — the play request does not complete without
error. -/
theorem c2_zero_volume_counterexample :
    (PlayChirp sinq0 ⟨0, 25/1000⟩ 1 ⟨440, 25000000, 0⟩).2 = Outcome.errored := by
  have hg : ¬ IsSoundPlaying ⟨0, 25/1000⟩ 1 := by
    unfold IsSoundPlaying
    norm_num
  unfold PlayChirp
  rw [if_neg hg]
  have hgen : generateChirp sinq0 ⟨440, 25000000, 0⟩ = .nilData := by
    unfold generateChirp
    rw [if_pos le_rfl]
  rw [hgen]

/-- Claim C2, amended: the property holds of the `pkg/player`
implementation.  For every sample with volume ≤ 0 or duration ≤ 0,
`OtoPlayer.generateChirp` returns the nil buffer with a nil error, and
`OtoPlayer.Play` completes without error (either skipped by the gap gate or
returning nil after the nil-data check); the root-package `PlayChirp`
instead returns an error for such inputs. -/
theorem c2_player_degenerate_ok (sinTwoPi : ℚ → ℚ) (p : player.OtoPlayer)
    (now : ℚ) (s : SampleConfig) (h : s.Volume ≤ 0 ∨ s.Duration ≤ 0) :
    player.generateChirp sinTwoPi s = none ∧
    ((player.Play sinTwoPi p now s).2 = player.PlayResult.skipped ∨
     (player.Play sinTwoPi p now s).2 = player.PlayResult.noData) := by
  have hgen : player.generateChirp sinTwoPi s = none := by
    unfold player.generateChirp
    rw [if_pos h]
  refine ⟨hgen, ?_⟩
  unfold player.Play
  by_cases hg : now - p.lastSoundTime < p.minSoundGap
  · rw [if_pos hg]
    left
    rfl
  · rw [if_neg hg, hgen]
    right
    rfl

/-- Witness for the amended C2: a zero-volume sample with an open gate is
skipped by the nil-data check without error. -/
theorem c2_player_degenerate_ok_witness :
    ((0 : ℚ) ≤ 0 ∨ (25 : ℤ) ≤ 0) ∧
    (player.generateChirp sinq0 ⟨"s", 25, 440, 0⟩ = none ∧
     ((player.Play sinq0 ⟨25/1000, 0⟩ 1 ⟨"s", 25, 440, 0⟩).2 =
        player.PlayResult.skipped ∨
      (player.Play sinq0 ⟨25/1000, 0⟩ 1 ⟨"s", 25, 440, 0⟩).2 =
        player.PlayResult.noData)) :=
  ⟨Or.inl le_rfl,
   c2_player_degenerate_ok sinq0 ⟨25/1000, 0⟩ 1 ⟨"s", 25, 440, 0⟩ (Or.inl le_rfl)⟩

/-! ### Claim C3 -/

/-- Claim C3: with the gate initially open at the first request, a second
request beginning less than the minimum gap after the first passed the
gate is suppressed (a nil result, gate state untouched, no buffer rendered,
no device call), while at separation greater than the gap both requests
render and invoke the audio device (the requests being playable: positive
volume and at least one sample). -/
theorem c3_min_gap_gate (sinTwoPi : ℚ → ℚ) (st : SoundState) (t1 t2 : ℚ)
    (o1 o2 : Options) (hg : ¬ IsSoundPlaying st t1)
    (hv1 : 0 < o1.Volume) (hn1 : 1 ≤ numSamplesZ o1)
    (hv2 : 0 < o2.Volume) (hn2 : 1 ≤ numSamplesZ o2) :
    (t2 - t1 < st.minSoundGap →
      PlayChirp sinTwoPi (PlayChirp sinTwoPi st t1 o1).1 t2 o2 =
        ((PlayChirp sinTwoPi st t1 o1).1, Outcome.suppressed) ∧
      invokesDevice Outcome.suppressed = false) ∧
    (st.minSoundGap < t2 - t1 →
      invokesDevice (PlayChirp sinTwoPi st t1 o1).2 = true ∧
      invokesDevice (PlayChirp sinTwoPi (PlayChirp sinTwoPi st t1 o1).1 t2 o2).2 =
        true) := by
  have hst1 : (PlayChirp sinTwoPi st t1 o1).1 = { st with lastSoundTime := t1 } :=
    PlayChirp_fst sinTwoPi st t1 o1 hg
  constructor
  · intro hlt
    have hplaying : IsSoundPlaying (PlayChirp sinTwoPi st t1 o1).1 t2 := by
      rw [hst1]
      exact hlt
    constructor
    · conv_lhs => rw [PlayChirp]
      rw [if_pos hplaying]
    · rfl
  · intro hgt
    have hopen : ¬ IsSoundPlaying (PlayChirp sinTwoPi st t1 o1).1 t2 := by
      rw [hst1]
      unfold IsSoundPlaying
      simp only
      linarith
    exact ⟨invokesDevice_PlayChirp sinTwoPi st t1 o1 hg hv1 hn1,
           invokesDevice_PlayChirp sinTwoPi _ t2 o2 hopen hv2 hn2⟩

/-- Witness for C3: two 1ms half-volume requests against a 25ms gap, with
the first gate check passing at t = 1. -/
theorem c3_min_gap_gate_witness :
    (¬ IsSoundPlaying ⟨0, 25/1000⟩ 1) ∧ (0 : ℚ) < 1/2 ∧
    1 ≤ numSamplesZ ⟨440, 1000000, 1/2⟩ ∧
    ((2 - 1 < (25 : ℚ)/1000 →
      PlayChirp sinq0 (PlayChirp sinq0 ⟨0, 25/1000⟩ 1 ⟨440, 1000000, 1/2⟩).1 2
          ⟨440, 1000000, 1/2⟩ =
        ((PlayChirp sinq0 ⟨0, 25/1000⟩ 1 ⟨440, 1000000, 1/2⟩).1,
         Outcome.suppressed) ∧
      invokesDevice Outcome.suppressed = false) ∧
    ((25 : ℚ)/1000 < 2 - 1 →
      invokesDevice (PlayChirp sinq0 ⟨0, 25/1000⟩ 1 ⟨440, 1000000, 1/2⟩).2 =
        true ∧
      invokesDevice
          (PlayChirp sinq0 (PlayChirp sinq0 ⟨0, 25/1000⟩ 1 ⟨440, 1000000, 1/2⟩).1
            2 ⟨440, 1000000, 1/2⟩).2 = true)) := by
  have hg : ¬ IsSoundPlaying ⟨0, 25/1000⟩ 1 := by
    unfold IsSoundPlaying
    norm_num
  have hn : 1 ≤ numSamplesZ ⟨440, 1000000, 1/2⟩ := by
    have : durSeconds ⟨440, 1000000, 1/2⟩ * 48000 = 48 := by
      norm_num [durSeconds]
    rw [numSamplesZ, this, truncQ_of_nonneg (by norm_num)]
    norm_num
  exact ⟨hg, by norm_num, hn,
    c3_min_gap_gate sinq0 ⟨0, 25/1000⟩ 1 2 ⟨440, 1000000, 1/2⟩
      ⟨440, 1000000, 1/2⟩ hg (by norm_num) hn (by norm_num) hn⟩

theorem addAll_items (l : List String) : ∀ (q : queue.Queue),
    q.items.length ≤ q.capacity →
    (queue.Queue.addAll q l).items =
      q.items ++ l.take (q.capacity - q.items.length) := by
  induction l with
  | nil =>
      intro q h
      simp [queue.Queue.addAll]
  | cons x rest ih =>
      intro q h
      unfold queue.Queue.addAll queue.Queue.Add
      by_cases hlt : q.items.length < q.capacity
      · rw [if_pos hlt]
        rw [ih _ (by simp; omega)]
        have hc : q.capacity - q.items.length =
            (q.capacity - (q.items.length + 1)) + 1 := by omega
        rw [hc, List.take_succ_cons]
        simp
      · rw [if_neg hlt]
        rw [ih q h]
        have hz : q.capacity - q.items.length = 0 := by omega
        rw [hz]
        simp

/-! ### Claim C4 -/

/-- Claim C4: the trigger queue operation `Add` is a total function (it never
blocks and reports no error); starting from an empty mailbox of capacity
`max_length`, a burst of `max_length + k` enqueues with no consumer
progress retains exactly the first `max_length` items in FIFO order — the
only items that can ever be consumed — and drops the rest. -/
theorem c4_bounded_queue_drops (cfg : config.Queue) (cap k : ℕ)
    (l : List String) (hlen : l.length = cap + k) (hk : 0 < k) :
    (queue.Queue.addAll ⟨cfg, cap, []⟩ l).items = l.take cap ∧
    (queue.Queue.addAll ⟨cfg, cap, []⟩ l).items.length = cap := by
  have h := addAll_items l ⟨cfg, cap, []⟩ (by simp)
  simp only [List.length_nil, Nat.sub_zero, List.nil_append] at h
  refine ⟨h, ?_⟩
  rw [h, List.length_take]
  omega

/-- Witness for C4: capacity 1, two enqueues, one retained item. -/
theorem c4_bounded_queue_drops_witness :
    (["a", "b"] : List String).length = 1 + 1 ∧ 0 < 1 ∧
    ((queue.Queue.addAll ⟨⟨"local", ["x"], "local", 1, none⟩, 1, []⟩
        ["a", "b"]).items = (["a", "b"] : List String).take 1 ∧
     (queue.Queue.addAll ⟨⟨"local", ["x"], "local", 1, none⟩, 1, []⟩
        ["a", "b"]).items.length = 1) :=
  ⟨rfl, by decide,
   c4_bounded_queue_drops ⟨"local", ["x"], "local", 1, none⟩ 1 1 ["a", "b"]
     rfl (by decide)⟩

theorem scanOutput_single (tk : InputTracker) (now : ℚ) (b : ℕ) :
    scanOutput now tk [b] 0 =
      if (IsRecentInput tk b now).1 then (false, 1, (IsRecentInput tk b now).2)
      else (true, 1, (IsRecentInput tk b now).2) := by
  unfold scanOutput
  by_cases h : (IsRecentInput tk b now).1 <;> simp [h, scanOutput]

theorem legacyShouldChirp_single (tk : InputTracker) (now : ℚ) (b : ℕ) :
    (legacyShouldChirp tk now [b]).1 = !(IsRecentInput tk b now).1 := by
  unfold legacyShouldChirp
  rw [scanOutput_single]
  by_cases h : (IsRecentInput tk b now).1 <;> simp [h]

/-! ### Claim C5 -/

/-- Claim C5 is refuted as stated on the new pipeline: even when byte 97
was recorded by the input tracker at the very same instant (δ = 0, well
inside the 1ms echo timeout, as the first conjunct certifies),
`Chirp.handleOutput` performs no echo check and still enqueues the matched
byte on its queue. -/
theorem c5_handleOutput_counterexample :
    (IsRecentInput (TrackInput ⟨[], 1/1000⟩ 97 0) 97 0).1 = true ∧
    (handleOutput [⟨⟨"local", ["a"], "local", 1, none⟩, 1, []⟩] [97]).map
        queue.Queue.items = [["a"]] := by
  constructor
  · have htrack : TrackInput ⟨[], 1/1000⟩ 97 0 = ⟨[(97, 0)], 1/1000⟩ := rfl
    rw [htrack]
    unfold IsRecentInput pruneChars
    simp only [List.filter, List.any_cons, List.any_nil]
    norm_num
  · decide

/-- Claim C5, amended: the echo-timeout property holds of the legacy output
path, which consults `IsRecentInput` (src/chirp.go together with the main
loops of src/unnamed/part_004 and part_005): after byte `b` is recorded at
time T into a tracker whose entries are no newer than T, processing `b` on
that path at T + δ suppresses the chirp when 0 ≤ δ < echoTimeout and does
not suppress it when δ > echoTimeout; the new pipeline function `Chirp.handleOutput` performs no echo suppression at all. -/
theorem c5_legacy_echo_window (tk : InputTracker) (b : ℕ) (T δ : ℚ)
    (hpast : ∀ e ∈ tk.chars, e.2 ≤ T) (ht : 0 < tk.timeout) :
    (0 ≤ δ → δ < tk.timeout →
      (legacyShouldChirp (TrackInput tk b T) (T + δ) [b]).1 = false) ∧
    (tk.timeout < δ →
      (legacyShouldChirp (TrackInput tk b T) (T + δ) [b]).1 = true) := by
  constructor
  · intro h0 h1
    rw [legacyShouldChirp_single]
    have hany : ((pruneChars (TrackInput tk b T) (T + δ)).any
        (fun ic => ic.1 == b)) = true := by
      apply List.any_eq_true.mpr
      refine ⟨(b, T), ?_, by simp⟩
      apply List.mem_filter.mpr
      refine ⟨by simp [TrackInput], ?_⟩
      simp only [TrackInput, decide_eq_true_eq]
      linarith
    unfold IsRecentInput
    rw [hany]
    rfl
  · intro h2
    rw [legacyShouldChirp_single]
    have hnil : pruneChars (TrackInput tk b T) (T + δ) = [] := by
      apply List.filter_eq_nil_iff.mpr
      intro e he
      simp only [TrackInput, List.mem_append, List.mem_singleton] at he
      have heT : e.2 ≤ T := by
        rcases he with he | he
        · exact hpast e (List.mem_of_mem_filter he)
        · rw [he]
      simp only [TrackInput, decide_eq_true_eq, not_lt]
      linarith
    unfold IsRecentInput
    rw [hnil]
    rfl

/-- Witness for the amended C5: an empty tracker with a 1ms timeout and
byte 97 recorded at time 0. -/
theorem c5_legacy_echo_window_witness :
    (∀ e ∈ (⟨[], 1/1000⟩ : InputTracker).chars, e.2 ≤ (0 : ℚ)) ∧
    (0 : ℚ) < 1/1000 ∧
    ((0 ≤ (1 : ℚ)/2000 → (1 : ℚ)/2000 < (1 : ℚ)/1000 →
      (legacyShouldChirp (TrackInput ⟨[], 1/1000⟩ 97 0) (0 + 1/2000) [97]).1 =
        false) ∧
    ((1 : ℚ)/1000 < 1/2000 →
      (legacyShouldChirp (TrackInput ⟨[], 1/1000⟩ 97 0) (0 + 1/2000) [97]).1 =
        true)) :=
  ⟨by simp, by norm_num,
   c5_legacy_echo_window ⟨[], 1/1000⟩ 97 0 (1/2000) (by simp) (by norm_num)⟩

/-! ### Claim C6 -/

/-- Claim C6: with positive phase fractions summing to at most 1 and any
sustain level, `calculateEnvelope` realises the claimed piecewise shape on
[0,1): the attack ramp for `progress < attack`, the 1-to-sustain
interpolation on `[attack, attack+decay)`, the sustain-to-0 interpolation
when `progress > 1-release` and `progress ≥ attack+decay`, and the sustain
level otherwise — the guards being mutually exclusive, so no sample has two
phases applied.  In particular the envelope is 0 at progress 0, equals the
sustain level at `attack+decay`, and equals `sustain * (e/release)` at
`progress = 1 - e` for `0 < e < release`, hence tends to 0 as progress
approaches 1. -/
theorem c6_envelope_piecewise (progress attack decay sustain release : ℚ)
    (ha : 0 < attack) (hd : 0 < decay) (hr : 0 < release)
    (hsum : attack + decay + release ≤ 1)
    (hp0 : 0 ≤ progress) (hp1 : progress < 1) :
    (progress < attack →
      calculateEnvelope progress attack decay sustain release =
        progress / attack) ∧
    (attack ≤ progress → progress < attack + decay →
      calculateEnvelope progress attack decay sustain release =
        1 - (1 - sustain) * ((progress - attack) / decay)) ∧
    (attack + decay ≤ progress → 1 - release < progress →
      calculateEnvelope progress attack decay sustain release =
        sustain * (1 - (progress - (1 - release)) / release)) ∧
    (attack + decay ≤ progress → progress ≤ 1 - release →
      calculateEnvelope progress attack decay sustain release = sustain) ∧
    calculateEnvelope 0 attack decay sustain release = 0 ∧
    calculateEnvelope (attack + decay) attack decay sustain release = sustain ∧
    (∀ e : ℚ, 0 < e → e < release →
      calculateEnvelope (1 - e) attack decay sustain release =
        sustain * (e / release)) := by
  refine ⟨?_, ?_, ?_, ?_, ?_, ?_, ?_⟩
  · intro h
    unfold calculateEnvelope
    rw [if_pos h]
  · intro h1 h2
    unfold calculateEnvelope
    rw [if_neg (not_lt.mpr h1), if_pos h2]
  · intro h1 h2
    unfold calculateEnvelope
    rw [if_neg (not_lt.mpr (by linarith)), if_neg (not_lt.mpr h1), if_pos h2]
  · intro h1 h2
    unfold calculateEnvelope
    rw [if_neg (not_lt.mpr (by linarith)), if_neg (not_lt.mpr h1),
        if_neg (not_lt.mpr h2)]
  · unfold calculateEnvelope
    rw [if_pos ha]
    exact zero_div attack
  · unfold calculateEnvelope
    rw [if_neg (not_lt.mpr (by linarith)), if_neg (lt_irrefl _),
        if_neg (not_lt.mpr (by linarith))]
  · intro e he0 her
    unfold calculateEnvelope
    rw [if_neg (not_lt.mpr (by linarith)), if_neg (not_lt.mpr (by linarith)),
        if_pos (by linarith)]
    have hr0 : release ≠ 0 := ne_of_gt hr
    field_simp

/-- Witness for C6: the concrete ADSR fractions used by the synthesizer
(attack 0.1, decay 0.2, sustain 0.7, release 0.3) at progress 0.5. -/
theorem c6_envelope_piecewise_witness :
    (0 : ℚ) < 1/10 ∧ (0 : ℚ) < 2/10 ∧ (0 : ℚ) < 3/10 ∧
    (1 : ℚ)/10 + 2/10 + 3/10 ≤ 1 ∧ (0 : ℚ) ≤ 1/2 ∧ (1 : ℚ)/2 < 1 ∧
    (((1 : ℚ)/2 < 1/10 →
      calculateEnvelope (1/2) (1/10) (2/10) (7/10) (3/10) = (1/2) / (1/10)) ∧
    ((1 : ℚ)/10 ≤ 1/2 → (1 : ℚ)/2 < 1/10 + 2/10 →
      calculateEnvelope (1/2) (1/10) (2/10) (7/10) (3/10) =
        1 - (1 - 7/10) * ((1/2 - 1/10) / (2/10))) ∧
    ((1 : ℚ)/10 + 2/10 ≤ 1/2 → 1 - (3 : ℚ)/10 < 1/2 →
      calculateEnvelope (1/2) (1/10) (2/10) (7/10) (3/10) =
        7/10 * (1 - (1/2 - (1 - 3/10)) / (3/10))) ∧
    ((1 : ℚ)/10 + 2/10 ≤ 1/2 → (1 : ℚ)/2 ≤ 1 - 3/10 →
      calculateEnvelope (1/2) (1/10) (2/10) (7/10) (3/10) = 7/10) ∧
    calculateEnvelope 0 (1/10) (2/10) (7/10) (3/10) = 0 ∧
    calculateEnvelope (1/10 + 2/10) (1/10) (2/10) (7/10) (3/10) = 7/10 ∧
    (∀ e : ℚ, 0 < e → e < 3/10 →
      calculateEnvelope (1 - e) (1/10) (2/10) (7/10) (3/10) =
        7/10 * (e / (3/10)))) :=
  ⟨by norm_num, by norm_num, by norm_num, by norm_num, by norm_num, by norm_num,
   c6_envelope_piecewise (1/2) (1/10) (2/10) (7/10) (3/10)
     (by norm_num) (by norm_num) (by norm_num) (by norm_num)
     (by norm_num) (by norm_num)⟩

/-! ### Claim C10 -/

/-- Claim C10: whenever a request passes the minimum-gap check, the
last-play timestamp becomes the current time immediately — before any
generation or device I/O, and for every generation outcome including
failure — and is not touched again by that request; hence any later request
within the gap window of that timestamp is suppressed, even when the first
request rendered nothing or errored. -/
theorem c10_timestamp_on_gate_pass (sinTwoPi : ℚ → ℚ) (st : SoundState)
    (now : ℚ) (o : Options) (hg : ¬ IsSoundPlaying st now) :
    (PlayChirp sinTwoPi st now o).1.lastSoundTime = now ∧
    (PlayChirp sinTwoPi st now o).1.minSoundGap = st.minSoundGap ∧
    ∀ (δ : ℚ) (o2 : Options), 0 ≤ δ → δ < st.minSoundGap →
      (PlayChirp sinTwoPi (PlayChirp sinTwoPi st now o).1 (now + δ) o2).2 =
        Outcome.suppressed := by
  have hst1 : (PlayChirp sinTwoPi st now o).1 = { st with lastSoundTime := now } :=
    PlayChirp_fst sinTwoPi st now o hg
  refine ⟨by rw [hst1], by rw [hst1], ?_⟩
  intro δ o2 hδ0 hδg
  have hplaying : IsSoundPlaying (PlayChirp sinTwoPi st now o).1 (now + δ) := by
    rw [hst1]
    unfold IsSoundPlaying
    simp only
    linarith
  conv_lhs => rw [PlayChirp]
  rw [if_pos hplaying]

/-- Witness for C10: the first request has volume 0, so its rendering
fails with an error — yet it consumes the gap window and a request 10ms
later is suppressed. -/
theorem c10_timestamp_on_gate_pass_witness :
    (¬ IsSoundPlaying ⟨0, 25/1000⟩ 1) ∧
    ((PlayChirp sinq0 ⟨0, 25/1000⟩ 1 ⟨440, 25000000, 0⟩).1.lastSoundTime = 1 ∧
     (PlayChirp sinq0 ⟨0, 25/1000⟩ 1 ⟨440, 25000000, 0⟩).1.minSoundGap = 25/1000 ∧
     ∀ (δ : ℚ) (o2 : Options), 0 ≤ δ → δ < (25 : ℚ)/1000 →
       (PlayChirp sinq0 (PlayChirp sinq0 ⟨0, 25/1000⟩ 1 ⟨440, 25000000, 0⟩).1
          (1 + δ) o2).2 = Outcome.suppressed) := by
  have hg : ¬ IsSoundPlaying ⟨0, 25/1000⟩ 1 := by
    unfold IsSoundPlaying
    norm_num
  exact ⟨hg, c10_timestamp_on_gate_pass sinq0 ⟨0, 25/1000⟩ 1 ⟨440, 25000000, 0⟩ hg⟩

/-! ### Claim C7 -/

/-- Claim C7 is refuted as stated: the canonical cache key
`"%.0f-%.0f-%.2f"` is lossy, so two distinct requests — 10.2ms and 10.4ms
at 440Hz, half volume — share the key `440-10-0.50`.  After the first
request populates the cache, the second (passing the gate 1s later) is
served the cached 10.2ms buffer (489 samples per channel), which is not
byte-identical to the synthesizer output for its own options (499 samples
per channel). -/
theorem c7_cache_collision_counterexample :
    (old.PlayChirp sinq0
        (old.PlayChirp sinq0 ⟨0, 25/1000, []⟩ 1 ⟨440, 10200000, 1/2⟩).1 2
        ⟨440, 10400000, 1/2⟩).2 ≠
      old.OldOutcome.played
        ((old.GenerateChirp sinq0 ⟨440, 10400000, 1/2⟩).getD []) := by
  have hnsA : old.numSamplesZ ⟨440, 10200000, 1/2⟩ = 489 := by
    have hq : (48000 : ℚ) * durSeconds ⟨440, 10200000, 1/2⟩ = 2448/5 := by
      norm_num [durSeconds]
    rw [old.numSamplesZ, hq, truncQ_of_nonneg (by norm_num)]
    norm_num
  have hnsB : old.numSamplesZ ⟨440, 10400000, 1/2⟩ = 499 := by
    have hq : (48000 : ℚ) * durSeconds ⟨440, 10400000, 1/2⟩ = 2496/5 := by
      norm_num [durSeconds]
    rw [old.numSamplesZ, hq, truncQ_of_nonneg (by norm_num)]
    norm_num
  have hkA : old.getCacheKey ⟨440, 10200000, 1/2⟩ = (440, 10, 50) := by
    norm_num [old.getCacheKey, durSeconds, round_eq]
  have hkB : old.getCacheKey ⟨440, 10400000, 1/2⟩ = (440, 10, 50) := by
    norm_num [old.getCacheKey, durSeconds, round_eq]
  have hgA : old.GenerateChirp sinq0 ⟨440, 10200000, 1/2⟩ =
      some (old.chirpBytes sinq0 ⟨440, 10200000, 1/2⟩) := by
    unfold old.GenerateChirp
    rw [if_neg (by norm_num), if_neg (by rw [hnsA]; norm_num)]
  have hgB : old.GenerateChirp sinq0 ⟨440, 10400000, 1/2⟩ =
      some (old.chirpBytes sinq0 ⟨440, 10400000, 1/2⟩) := by
    unfold old.GenerateChirp
    rw [if_neg (by norm_num), if_neg (by rw [hnsB]; norm_num)]
  have hstep1 : old.PlayChirp sinq0 ⟨0, 25/1000, []⟩ 1 ⟨440, 10200000, 1/2⟩ =
      (⟨1, 25/1000,
        [(old.getCacheKey ⟨440, 10200000, 1/2⟩,
          old.chirpBytes sinq0 ⟨440, 10200000, 1/2⟩)]⟩,
       old.OldOutcome.played (old.chirpBytes sinq0 ⟨440, 10200000, 1/2⟩)) := by
    unfold old.PlayChirp
    rw [if_neg (by norm_num)]
    simp only [List.lookup_nil, hgA]
  rw [hstep1]
  have hstep2 : (old.PlayChirp sinq0
      ⟨1, 25/1000,
        [(old.getCacheKey ⟨440, 10200000, 1/2⟩,
          old.chirpBytes sinq0 ⟨440, 10200000, 1/2⟩)]⟩ 2
      ⟨440, 10400000, 1/2⟩).2 =
      old.OldOutcome.played (old.chirpBytes sinq0 ⟨440, 10200000, 1/2⟩) := by
    unfold old.PlayChirp
    rw [if_neg (by norm_num)]
    rw [hkA, hkB]
    simp [List.lookup]
  rw [hstep2, hgB]
  simp only [Option.getD_some]
  intro heq
  have hbytes : old.chirpBytes sinq0 ⟨440, 10200000, 1/2⟩ =
      old.chirpBytes sinq0 ⟨440, 10400000, 1/2⟩ := by
    injection heq
  have hlenA := old_chirpBytes_length sinq0 ⟨440, 10200000, 1/2⟩
  have hlenB := old_chirpBytes_length sinq0 ⟨440, 10400000, 1/2⟩
  rw [hbytes, hlenB, hnsB] at hlenA
  rw [hnsA] at hlenA
  simp at hlenA

/-- Claim C7, amended: the PCM bytes handed to the device on a
gate-passing request equal the Synthesizer output for the very options of the request provided the cache holds no colliding entry under the key of the request — i.e. the key is absent (fresh render, stored then played) or the
cached entry already equals the Synthesizer output for these options.
Distinct option values with coinciding key encodings can instead be served
the bytes of the colliding entry. -/
theorem c7_cache_serves_synth_output (sinTwoPi : ℚ → ℚ) (st : old.OldState)
    (now : ℚ) (o : Options) (d : List ℕ)
    (hgate : ¬ (now - st.lastSoundTime < st.minSoundGap))
    (hcache : st.cache.lookup (old.getCacheKey o) = none ∨
              st.cache.lookup (old.getCacheKey o) =
                old.GenerateChirp sinTwoPi o)
    (hgen : old.GenerateChirp sinTwoPi o = some d) :
    (old.PlayChirp sinTwoPi st now o).2 = old.OldOutcome.played d := by
  unfold old.PlayChirp
  rw [if_neg hgate]
  rcases hcache with hc | hc
  · simp only [hc, hgen]
  · rw [hgen] at hc
    simp only [hc]

/-- Witness for the amended C7: an open gate, an empty cache, and a
zero-volume request whose synthesizer output is the empty buffer. -/
theorem c7_cache_serves_synth_output_witness :
    (¬ ((1 : ℚ) - 0 < 25/1000)) ∧
    old.GenerateChirp sinq0 ⟨440, 31250, 0⟩ = some [] ∧
    (old.PlayChirp sinq0 ⟨0, 25/1000, []⟩ 1 ⟨440, 31250, 0⟩).2 =
      old.OldOutcome.played [] := by
  have hgate : ¬ ((1 : ℚ) - 0 < 25/1000) := by norm_num
  have hgen : old.GenerateChirp sinq0 ⟨440, 31250, 0⟩ = some [] := by
    unfold old.GenerateChirp
    rw [if_pos le_rfl]
  exact ⟨hgate, hgen,
    c7_cache_serves_synth_output sinq0 ⟨0, 25/1000, []⟩ 1 ⟨440, 31250, 0⟩ []
      hgate (Or.inl rfl) hgen⟩

theorem SampleConfig_validate_bounds (s : SampleConfig) (u : Unit)
    (h : s.Validate = .ok u) :
    0 < s.Duration ∧ 0 < s.Frequency ∧ 0 ≤ s.Volume ∧ s.Volume ≤ 1 := by
  unfold SampleConfig.Validate at h
  split_ifs at h with h1 h2 h3
  push_neg at h1 h2 h3
  exact ⟨h1, h2, h3.1, h3.2⟩

theorem Queue_validate_facts (q q2 : config.Queue) (h : q.Validate = .ok q2) :
    1 ≤ q2.MaxLength ∧ q2.SampleName = q.SampleName := by
  unfold config.Queue.Validate at h
  split_ifs at h with h1 h2 h3 h4
  · injection h with h5
    rw [← h5]
    exact ⟨le_refl 1, rfl⟩
  · injection h with h5
    rw [← h5]
    refine ⟨by omega, rfl⟩

theorem validateSamples_ok_shape :
    ∀ (l l2 : List (String × SampleConfig)),
    config.validateSamples l = .ok l2 →
    l2 = l.map (fun p => (p.1, { p.2 with Name := p.1 })) := by
  intro l
  induction l with
  | nil =>
      intro l2 h
      simp [config.validateSamples] at h
      subst h
      rfl
  | cons p rest ih =>
      intro l2 h
      obtain ⟨name, s⟩ := p
      unfold config.validateSamples at h
      cases hval : SampleConfig.Validate { s with Name := name } with
      | error e => simp [hval] at h
      | ok u =>
          simp only [hval] at h
          cases hrec : config.validateSamples rest with
          | error e => simp [hrec] at h
          | ok rest2 =>
              simp only [hrec, Except.ok.injEq] at h
              rw [← h, ih rest2 hrec]
              simp

theorem validateSamples_ok_valid :
    ∀ (l l2 : List (String × SampleConfig)),
    config.validateSamples l = .ok l2 →
    ∀ p ∈ l2, SampleConfig.Validate p.2 = .ok () := by
  intro l
  induction l with
  | nil =>
      intro l2 h p hp
      simp [config.validateSamples] at h
      rw [h] at hp
      simp at hp
  | cons hd rest ih =>
      intro l2 h p hp
      obtain ⟨name, s⟩ := hd
      unfold config.validateSamples at h
      cases hval : SampleConfig.Validate { s with Name := name } with
      | error e => simp [hval] at h
      | ok u =>
          simp only [hval] at h
          cases hrec : config.validateSamples rest with
          | error e => simp [hrec] at h
          | ok rest2 =>
              simp only [hrec, Except.ok.injEq] at h
              rw [← h] at hp
              rcases List.mem_cons.mp hp with hp1 | hp2
              · rw [hp1]
                rw [hval]
              · exact ih rest2 hrec p hp2

theorem lookup_isSome_map {β : Type} (f : String × SampleConfig → β) :
    ∀ (l : List (String × SampleConfig)) (k : String),
    (List.lookup k (l.map (fun p => (p.1, f p)))).isSome =
      (List.lookup k l).isSome := by
  intro l
  induction l with
  | nil => intro k; rfl
  | cons p rest ih =>
      intro k
      simp only [List.map_cons, List.lookup]
      by_cases hk : k == p.1
      · rw [hk]
        rfl
      · rw [Bool.not_eq_true] at hk
        rw [hk]
        exact ih k

theorem linkQueues_ok_mem (samples : List (String × SampleConfig)) :
    ∀ (ql ql2 : List (String × config.Queue)),
    config.linkQueues samples ql = .ok ql2 →
    ∀ p ∈ ql2, 1 ≤ p.2.MaxLength ∧
      ∃ s, samples.lookup p.2.SampleName = some s ∧ p.2.Sample = some s := by
  intro ql
  induction ql with
  | nil =>
      intro ql2 h p hp
      simp [config.linkQueues] at h
      rw [h] at hp
      simp at hp
  | cons hd rest ih =>
      intro ql2 h p hp
      obtain ⟨name, q⟩ := hd
      unfold config.linkQueues at h
      cases hval : config.Queue.Validate { q with Name := name } with
      | error e => simp [hval] at h
      | ok q2 =>
          simp only [hval] at h
          cases hlook : samples.lookup q2.SampleName with
          | none => simp [hlook] at h
          | some s =>
              simp only [hlook] at h
              cases hrec : config.linkQueues samples rest with
              | error e => simp [hrec] at h
              | ok rest2 =>
                  simp only [hrec, Except.ok.injEq] at h
                  rw [← h] at hp
                  rcases List.mem_cons.mp hp with hp1 | hp2
                  · rw [hp1]
                    have hfacts := Queue_validate_facts _ _ hval
                    exact ⟨hfacts.1, s, hlook, rfl⟩
                  · exact ih rest2 hrec p hp2

theorem linkQueues_ok_names (samples : List (String × SampleConfig)) :
    ∀ (ql ql2 : List (String × config.Queue)),
    config.linkQueues samples ql = .ok ql2 →
    ∀ p ∈ ql, (samples.lookup p.2.SampleName).isSome = true := by
  intro ql
  induction ql with
  | nil =>
      intro ql2 h p hp
      simp at hp
  | cons hd rest ih =>
      intro ql2 h p hp
      obtain ⟨name, q⟩ := hd
      unfold config.linkQueues at h
      cases hval : config.Queue.Validate { q with Name := name } with
      | error e => simp [hval] at h
      | ok q2 =>
          simp only [hval] at h
          cases hlook : samples.lookup q2.SampleName with
          | none => simp [hlook] at h
          | some s =>
              simp only [hlook] at h
              cases hrec : config.linkQueues samples rest with
              | error e => simp [hrec] at h
              | ok rest2 =>
                  rcases List.mem_cons.mp hp with hp1 | hp2
                  · rw [hp1]
                    have hname : q2.SampleName = q.SampleName :=
                      (Queue_validate_facts _ _ hval).2
                    rw [← hname, hlook]
                    rfl
                  · exact ih rest2 hrec p hp2

/-! ### Claim C8 -/

/-- Claim C8: when `LoadConfig` succeeds, every loaded queue has
`MaxLength ≥ 1` and a non-nil linked sample equal to the loaded samples
entry under its sample key; every loaded sample has positive duration and
frequency and volume within [0,1]; and every queue of the input
configuration names a sample that exists there — so an unresolved reference
makes loading fail. -/
theorem c8_load_config_invariants (cfg cfg2 : config.Config)
    (h : config.LoadConfig cfg = .ok cfg2) :
    (∀ p ∈ cfg2.Queues, 1 ≤ p.2.MaxLength ∧ p.2.Sample ≠ none ∧
       p.2.Sample = cfg2.Samples.lookup p.2.SampleName) ∧
    (∀ p ∈ cfg2.Samples, 0 < p.2.Duration ∧ 0 < p.2.Frequency ∧
       0 ≤ p.2.Volume ∧ p.2.Volume ≤ 1) ∧
    (∀ p ∈ cfg.Queues, (cfg.Samples.lookup p.2.SampleName).isSome = true) := by
  unfold config.LoadConfig at h
  cases hs : config.validateSamples cfg.Samples with
  | error e => simp [hs] at h
  | ok samples2 =>
      simp only [hs] at h
      cases hq : config.linkQueues samples2 cfg.Queues with
      | error e => simp [hq] at h
      | ok queues2 =>
          simp only [hq, Except.ok.injEq] at h
          refine ⟨?_, ?_, ?_⟩
          · intro p hp
            rw [← h] at hp
            simp at hp
            obtain ⟨hml, s, hlook, hsam⟩ :=
              linkQueues_ok_mem samples2 cfg.Queues queues2 hq p hp
            refine ⟨hml, ?_, ?_⟩
            · rw [hsam]
              simp
            · rw [hsam, ← h]
              simp only
              rw [hlook]
          · intro p hp
            rw [← h] at hp
            simp at hp
            exact SampleConfig_validate_bounds p.2 ()
              (validateSamples_ok_valid cfg.Samples samples2 hs p hp)
          · intro p hp
            have hsome := linkQueues_ok_names samples2 cfg.Queues queues2 hq p hp
            have hshape := validateSamples_ok_shape cfg.Samples samples2 hs
            rw [hshape] at hsome
            rw [← lookup_isSome_map (fun p => { p.2 with Name := p.1 })
              cfg.Samples p.2.SampleName]
            exact hsome

/-- Witness for C8: a one-sample, one-queue configuration (the queue field `max_length` left at 0 and defaulted to 1 by validation) loads
successfully. -/
theorem c8_load_config_invariants_witness :
    config.LoadConfig
        ⟨[("local", ⟨"", 50, 392, 1⟩)], [("q", ⟨"", ["\n"], "local", 0, none⟩)]⟩ =
      .ok ⟨[("local", ⟨"local", 50, 392, 1⟩)],
           [("q", ⟨"q", ["\n"], "local", 1, some ⟨"local", 50, 392, 1⟩⟩)]⟩ ∧
    ((∀ p ∈ [("q", (⟨"q", ["\n"], "local", 1,
          some ⟨"local", 50, 392, 1⟩⟩ : config.Queue))],
        1 ≤ p.2.MaxLength ∧ p.2.Sample ≠ none ∧
        p.2.Sample =
          List.lookup p.2.SampleName [("local", (⟨"local", 50, 392, 1⟩ : SampleConfig))]) ∧
     (∀ p ∈ [("local", (⟨"local", 50, 392, 1⟩ : SampleConfig))],
        0 < p.2.Duration ∧ 0 < p.2.Frequency ∧
        0 ≤ p.2.Volume ∧ p.2.Volume ≤ 1) ∧
     (∀ p ∈ [("q", (⟨"", ["\n"], "local", 0, none⟩ : config.Queue))],
        (List.lookup p.2.SampleName
          [("local", (⟨"", 50, 392, 1⟩ : SampleConfig))]).isSome = true)) := by
  have hval : SampleConfig.Validate ⟨"local", 50, 392, 1⟩ = .ok () := by
    unfold SampleConfig.Validate
    rw [if_neg (by norm_num), if_neg (by norm_num), if_neg (by norm_num)]
  have hsamp : config.validateSamples [("local", ⟨"", 50, 392, 1⟩)] =
      .ok [("local", ⟨"local", 50, 392, 1⟩)] := by
    unfold config.validateSamples
    rw [show ({ (⟨"", 50, 392, 1⟩ : SampleConfig) with Name := "local" }) =
        (⟨"local", 50, 392, 1⟩ : SampleConfig) from rfl, hval]
    rfl
  have hqv : config.Queue.Validate ⟨"q", ["\n"], "local", 0, none⟩ =
      .ok ⟨"q", ["\n"], "local", 1, none⟩ := by
    unfold config.Queue.Validate
    rw [if_neg (by decide), if_neg (by decide), if_neg (by decide), if_pos rfl]
  have hlink : config.linkQueues [("local", ⟨"local", 50, 392, 1⟩)]
      [("q", ⟨"", ["\n"], "local", 0, none⟩)] =
      .ok [("q", ⟨"q", ["\n"], "local", 1, some ⟨"local", 50, 392, 1⟩⟩)] := by
    unfold config.linkQueues
    rw [show ({ (⟨"", ["\n"], "local", 0, none⟩ : config.Queue) with Name := "q" }) =
        (⟨"q", ["\n"], "local", 0, none⟩ : config.Queue) from rfl, hqv]
    rfl
  have hload : config.LoadConfig
      ⟨[("local", ⟨"", 50, 392, 1⟩)], [("q", ⟨"", ["\n"], "local", 0, none⟩)]⟩ =
      .ok ⟨[("local", ⟨"local", 50, 392, 1⟩)],
           [("q", ⟨"q", ["\n"], "local", 1, some ⟨"local", 50, 392, 1⟩⟩)]⟩ := by
    unfold config.LoadConfig
    simp only [hsamp, hlink]
  exact ⟨hload, c8_load_config_invariants _ _ hload⟩

/-! ### Claim C9 -/

/-- Claim C9: the synthesizer is deterministic and pure — `generateChirp`
depends only on the (frequency, duration, volume) fields of its input, and
two `PlayChirp` invocations that pass the gate from arbitrary gate states
and at arbitrary times produce identical outcomes for identical inputs,
since the synthesizer reads no mutable state. -/
theorem c9_synthesizer_deterministic (sinTwoPi : ℚ → ℚ) (o1 o2 : Options)
    (st1 st2 : SoundState) (t1 t2 : ℚ)
    (hf : o1.Frequency = o2.Frequency) (hd : o1.DurationNs = o2.DurationNs)
    (hv : o1.Volume = o2.Volume)
    (hg1 : ¬ IsSoundPlaying st1 t1) (hg2 : ¬ IsSoundPlaying st2 t2) :
    generateChirp sinTwoPi o1 = generateChirp sinTwoPi o2 ∧
    (PlayChirp sinTwoPi st1 t1 o1).2 = (PlayChirp sinTwoPi st2 t2 o2).2 := by
  have ho : o1 = o2 := by
    cases o1
    cases o2
    simp_all
  subst ho
  refine ⟨rfl, ?_⟩
  unfold PlayChirp
  rw [if_neg hg1, if_neg hg2]
  cases generateChirp sinTwoPi o1 <;> rfl

/-- Witness for C9: the same request issued from two different gate states
and times yields one and the same outcome. -/
theorem c9_synthesizer_deterministic_witness :
    (¬ IsSoundPlaying ⟨0, 25/1000⟩ 1) ∧ (¬ IsSoundPlaying ⟨5, 25/1000⟩ 7) ∧
    (generateChirp sinq0 ⟨440, 1000000, 1/2⟩ =
       generateChirp sinq0 ⟨440, 1000000, 1/2⟩ ∧
     (PlayChirp sinq0 ⟨0, 25/1000⟩ 1 ⟨440, 1000000, 1/2⟩).2 =
       (PlayChirp sinq0 ⟨5, 25/1000⟩ 7 ⟨440, 1000000, 1/2⟩).2) := by
  have hg1 : ¬ IsSoundPlaying ⟨0, 25/1000⟩ 1 := by
    unfold IsSoundPlaying
    norm_num
  have hg2 : ¬ IsSoundPlaying ⟨5, 25/1000⟩ 7 := by
    unfold IsSoundPlaying
    norm_num
  exact ⟨hg1, hg2,
    c9_synthesizer_deterministic sinq0 ⟨440, 1000000, 1/2⟩ ⟨440, 1000000, 1/2⟩
      ⟨0, 25/1000⟩ ⟨5, 25/1000⟩ 1 7 rfl rfl rfl hg1 hg2⟩
